import Mathlib

/-!
Verification of the rule-based Java code reviewer (java_code_reviewer.py).

A Python string is modelled as a `List Char`; the per-line rule checks,
the brace-counting block scanner, the scorer and the result assembler are
translated directly from the source.  Scores are modelled over `ℚ`
(Python's arithmetic on these values is exact for the inputs involved,
up to float representation, and rounding to one decimal is modelled by
`roundTo1`).
-/

/-- One source line, as Python sees it: a sequence of characters. -/
abbrev Line := List Char

/-- Whitespace characters removed by Python's `str.strip()` (ASCII range). -/
def isPySpace (c : Char) : Bool :=
  c == ' ' || c == '\t' || c == '\n' || c == '\x0b' || c == '\x0c' || c == '\r'

/-- Python `s.strip()`: drop whitespace from both ends. -/
def pyStrip (s : Line) : Line :=
  ((s.dropWhile isPySpace).reverse.dropWhile isPySpace).reverse

/-- Python `s.startswith(p)`: `listStartsWith p s` is true when `p` is a prefix of `s`. -/
def listStartsWith : Line → Line → Bool
  | [], _ => true
  | _ :: _, [] => false
  | a :: as, b :: bs => a == b && listStartsWith as bs

/-- Python `needle in hay` for strings: substring containment. -/
def containsSub (needle : Line) : Line → Bool
  | [] => needle.isEmpty
  | c :: t => listStartsWith needle (c :: t) || containsSub needle t

/-- Python `c in s` for a single character `c`. -/
def containsChar (s : Line) (c : Char) : Bool :=
  s.any (· == c)

/-- Python `s.count(c)` for a single character `c`. -/
def countChar (s : Line) (c : Char) : Nat :=
  s.countP (· == c)

/-- ASCII `[a-z]`. -/
def isAsciiLower (c : Char) : Bool := 'a' ≤ c && c ≤ 'z'

/-- ASCII `[A-Z]`. -/
def isAsciiUpper (c : Char) : Bool := 'A' ≤ c && c ≤ 'Z'

/-- ASCII `[0-9]`. -/
def isAsciiDigit (c : Char) : Bool := '0' ≤ c && c ≤ '9'

/-- ASCII `[a-zA-Z0-9]`. -/
def isAsciiAlnum (c : Char) : Bool := isAsciiLower c || isAsciiUpper c || isAsciiDigit c

/-- Regex word character `\w` restricted to ASCII: `[A-Za-z0-9_]`. -/
def isWordChar (c : Char) : Bool := isAsciiAlnum c || c == '_'

/-- Drops the prefix `p` from a list, returning the rest, or `none` when `p`
is not a prefix. -/
def listDropPrefix : Line → Line → Option Line
  | [], s => some s
  | _ :: _, [] => none
  | a :: as, b :: bs => if a == b then listDropPrefix as bs else none

/-- Tests `re.match(r'^\s*private\s+static\s+', s)`: optional leading whitespace,
`private`, at least one whitespace, `static`, at least one whitespace. -/
def matchPrivateStatic (s : Line) : Bool :=
  match listDropPrefix ("private".data) (s.dropWhile isPySpace) with
  | some (c :: rest) =>
      isPySpace c &&
        (match listDropPrefix ("static".data) ((c :: rest).dropWhile isPySpace) with
         | some (d :: _) => isPySpace d
         | _ => false)
  | _ => false

/-- Tests `re.match(r'^[a-z][a-zA-Z0-9]*\s*\(', s)`. -/
def matchMethodShape (s : Line) : Bool :=
  match s with
  | [] => false
  | c :: rest =>
    isAsciiLower c &&
      (match (rest.dropWhile isAsciiAlnum).dropWhile isPySpace with
       | '(' :: _ => true
       | _ => false)

/-- Computes `re.match(r'^([a-z][a-zA-Z0-9]*)', s)`: the captured group when the match succeeds. -/
def methodNameHead (s : Line) : Option Line :=
  match s with
  | [] => none
  | c :: rest => if isAsciiLower c then some (c :: rest.takeWhile isAsciiAlnum) else none

/-- Tests `re.match(r'^[a-z][a-zA-Z0-9]*$', g)`: `g` is a full camel-case identifier. -/
def matchCamel (g : Line) : Bool :=
  match g with
  | [] => false
  | c :: rest => isAsciiLower c && rest.all isAsciiAlnum

/-- Helper for `re.search(r'\b\d{2,}\b', s)`.  `prevW` records whether the previous
character is a word character (so no word boundary sits before the current one). -/
def magicScan (prevW : Bool) : Line → Bool
  | [] => false
  | c :: rest =>
    (!prevW && isAsciiDigit c &&
      2 ≤ ((c :: rest).takeWhile isAsciiDigit).length &&
       (match (c :: rest).dropWhile isAsciiDigit with
        | [] => true
        | d :: _ => !isWordChar d)) ||
    magicScan (isWordChar c) rest

/-- Tests `re.search(r'\b\d{2,}\b', s)`: some maximal digit run of length at least two is
delimited by word boundaries on both sides. -/
def hasMagicNumber (s : Line) : Bool :=
  magicScan false s

/-- A reported issue (dataclass `CodeIssue`). -/
structure CodeIssue where
  line_number : Nat
  severity : String
  category : String
  message : String
  suggestion : String
deriving DecidableEq

/-- The per-file review record (dataclass `ReviewResult`). -/
structure ReviewResult where
  file_path : String
  file_name : String
  total_lines : Nat
  issues : List CodeIssue
  score : ℚ
  summary : String
deriving DecidableEq

/-- The mutable state of one `JavaCodeReviewer` instance. -/
structure ReviewerState where
  issues : List CodeIssue
  current_file : String
deriving DecidableEq

/-- Round to one decimal place, as `round(x, 1)` does on the exact value. -/
def roundTo1 (x : ℚ) : ℚ :=
  ((round (10 * x) : ℤ) : ℚ) / 10

/-- Embeds `JavaCodeReviewer._calculate_score`. -/
def calculate_score (issues : List CodeIssue) (total_lines : Nat) : ℚ :=
  if issues.isEmpty then 100
  else
    roundTo1 (max 0 (100 -
      min ((((issues.countP (·.severity == "error") : ℚ)) * 10 +
            ((issues.countP (·.severity == "warning") : ℚ)) * 5 +
            ((issues.countP (·.severity == "info") : ℚ)) * 1) /
              ((max total_lines 1 : ℕ) : ℚ)) 1 * 100))

/-- The scoring formula exactly as the specification words it:
`max(0, 100 - min(penalty / max(total_lines, 1), 1.0) * 100)` rounded to one
decimal place, with `penalty = 10*(#error) + 5*(#warning) + 1*(#info)`.
This definition follows the spec text and is compared with `calculate_score`,
which is translated from the source. -/
def scoreSpec (issues : List CodeIssue) (total_lines : Nat) : ℚ :=
  roundTo1 (max 0 (100 -
    min ((10 * (issues.countP (·.severity == "error") : ℚ) +
          5 * (issues.countP (·.severity == "warning") : ℚ) +
          1 * (issues.countP (·.severity == "info") : ℚ)) /
            ((max total_lines 1 : ℕ) : ℚ)) 1 * 100))

/-- Embeds `JavaCodeReviewer._generate_summary`. -/
def generate_summary (issues : List CodeIssue) : String :=
  if issues.isEmpty then "代码质量优秀，未发现明显问题。"
  else
    "发现" ++ String.intercalate ", "
        ((if 0 < issues.countP (·.severity == "error") then
            [toString (issues.countP (·.severity == "error")) ++ "个错误"] else []) ++
         (if 0 < issues.countP (·.severity == "warning") then
            [toString (issues.countP (·.severity == "warning")) ++ "个警告"] else []) ++
         (if 0 < issues.countP (·.severity == "info") then
            [toString (issues.countP (·.severity == "info")) ++ "个建议"] else []))
      ++ "，需要关注和改进。"

/-- Zero-based index window scanned by `_needs_indentation`:
`range(max(0, line_num - 10), line_num)`. -/
def indentWindow (line_num : Nat) : List Nat :=
  List.range' (max 0 (line_num - 10)) (line_num - max 0 (line_num - 10))

/-- Embeds `JavaCodeReviewer._needs_indentation` (its `line` parameter is unused
in the source). -/
def needs_indentation (line_num : Nat) (lines : List Line) : Bool :=
  (indentWindow line_num).any fun j =>
    containsChar (pyStrip (lines.getD j [])) '{' &&
      !listStartsWith ("//".data) (pyStrip (lines.getD j [])) &&
      !listStartsWith ("*".data) (pyStrip (lines.getD j []))

/-- Findings `_check_code_style` emits for the 1-based line `i`, where `original`
is the raw line and `l` its stripped form. -/
def styleLine (lines : List Line) (i : Nat) (original : Line) (l : Line) : List CodeIssue :=
  if l.isEmpty || listStartsWith ("//".data) l || listStartsWith ("*".data) l ||
      listStartsWith ("/*".data) l then []
  else if listStartsWith ("public class".data) l || listStartsWith ("class ".data) l ||
      listStartsWith ("public interface".data) l || listStartsWith ("interface ".data) l ||
      listStartsWith ("public enum".data) l || listStartsWith ("enum ".data) l ||
      listStartsWith ("package ".data) l || listStartsWith (['i','m','p','o','r','t',' ']) l then
    if listStartsWith [' '] original || listStartsWith ['\t'] original then
      [⟨i, "warning", "style", "顶级声明不应有缩进", "移除不必要的缩进"⟩]
    else []
  else if listStartsWith ['{'] l || listStartsWith ['}'] l ||
      listStartsWith ("if".data) l || listStartsWith ("for".data) l ||
      listStartsWith ("while".data) l || listStartsWith ("try".data) l ||
      listStartsWith ("catch".data) l || listStartsWith ("finally".data) l ||
      listStartsWith ("return".data) l || listStartsWith ("throw".data) l then
    if !listStartsWith [' '] original && !listStartsWith ['\t'] original &&
        !listStartsWith ("public".data) l && !listStartsWith ("private".data) l &&
        !listStartsWith ("protected".data) l && !listStartsWith ("static".data) l then
      if needs_indentation i lines then
        [⟨i, "warning", "style", "代码块缺少适当缩进", "使用4个空格进行缩进"⟩]
      else []
    else []
  else []

/-- Findings `_check_code_style_additional` emits for the 1-based line `i` with
stripped content `l`.  The source's blank-line block only evaluates conditions and
then executes `pass`, emitting nothing, so it does not appear in the model.
This is the naming-convention part. -/
def namingBlock (i : Nat) (l : Line) : List CodeIssue :=
  if matchMethodShape l then
    (match methodNameHead l with
     | some g =>
         if !matchCamel g then
           [⟨i, "warning", "style", "方法名不符合驼峰命名规范", "方法名应以小写字母开头，使用驼峰命名法"⟩]
         else []
     | none => [])
  else []

/-- Findings `_check_code_style_additional` emits for the 1-based line `i` with
stripped content `l`: the length check followed by the naming check. -/
def styleAddLine (i : Nat) (l : Line) : List CodeIssue :=
  (if 120 < l.length then
     [⟨i, "info", "style", "行长度过长 (" ++ toString l.length ++ " 字符)", "考虑将长行拆分为多行"⟩]
   else []) ++
  namingBlock i l

/-- Zero-based index window scanned by the static-`SimpleDateFormat` check:
`range(max(0, i - 20), min(len(lines), i + 20))`. -/
def threadSafetyWindow (i len : Nat) : List Nat :=
  List.range' (max 0 (i - 20)) (min len (i + 20) - max 0 (i - 20))

/-- Findings `_check_thread_safety` emits for the 1-based line `i` with stripped
content `l` (the `has_thread_local` / `has_synchronized` / `has_volatile` flags of
the source are never read and are omitted). -/
def tsLine (lines : List Line) (i : Nat) (l : Line) : List CodeIssue :=
  (if containsSub ("ThreadLocal".data) l then
     (if containsSub ("ThreadLocal<SimpleDateFormat>".data) l then
        [⟨i, "info", "thread_safety", "使用了ThreadLocal包装SimpleDateFormat",
          "这是处理SimpleDateFormat线程安全的最佳实践"⟩]
      else [])
   else []) ++
  (if containsSub ("synchronized".data) l then
     (if containsSub ("synchronized (sdf)".data) l then
        [⟨i, "info", "thread_safety", "使用了synchronized关键字", "确保了对共享资源的同步访问"⟩]
      else [])
   else []) ++
  (if matchPrivateStatic l then
     (if containsSub ("SimpleDateFormat".data) l && !containsSub ("ThreadLocal".data) l then
        (if (threadSafetyWindow i lines.length).any
              (fun j => containsSub ("ThreadLocal<SimpleDateFormat>".data) (lines.getD j [])) then
           []
         else
           [⟨i, "error", "thread_safety", "静态SimpleDateFormat不是线程安全的",
             "使用ThreadLocal包装或每次创建新实例"⟩])
      else [])
   else [])

/-- Zero-based index window scanned by the missing-log-in-catch check:
`range(i, min(i + 10, len(lines)))`. -/
def loggingWindow (i len : Nat) : List Nat :=
  List.range' i (min (i + 10) len - i)

/-- Findings `_check_logging` emits for the 1-based line `i` with stripped content
`l` (the `has_logger` / `has_system_out` flags are never read and are omitted). -/
def logLine (lines : List Line) (i : Nat) (l : Line) : List CodeIssue :=
  (if containsSub ("System.out.println".data) l then
     [⟨i, "warning", "logging", "使用了System.out.println进行输出",
       "建议使用专业的日志框架如SLF4J + Logback"⟩]
   else []) ++
  (if containsSub ("System.err.println".data) l then
     [⟨i, "warning", "logging", "使用了System.err.println进行错误输出", "建议使用日志框架的ERROR级别"⟩]
   else []) ++
  (if containsSub ("catch".data) l && containsSub ("Exception".data) l then
     (if (loggingWindow i lines.length).any (fun j =>
            containsSub ("log.".data) (lines.getD j []) ||
            containsSub ("Logger".data) (lines.getD j []) ||
            containsSub ("System.out".data) (lines.getD j [])) then []
      else
        [⟨i, "warning", "logging", "异常处理中缺少日志记录", "在catch块中记录异常信息，便于调试和监控"⟩])
   else [])

/-- One step of the brace bookkeeping of `_check_exception_handling`:
add `count('{')` when a `{` is present, then subtract `count('}')` when a `}` is
present. -/
def braceUpdate (bc : Int) (cur : Line) : Int :=
  (if containsChar cur '{' then bc + (countChar cur '{' : Int) else bc) -
    (if containsChar cur '}' then (countChar cur '}' : Int) else 0)

/-- The catch-block collection loop of `_check_exception_handling`
(`for j in range(i, len(lines))`): `j` is the current zero-based index, `bc` the
running brace count, `inB` the `in_catch_block` flag.  A line is collected after
its braces are counted, when the block is open and the count is positive; the loop
breaks when the block was opened, the count is back to zero or below and `j > i`. -/
def scanCatchFrom (i : Nat) : Nat → Int → Bool → List Line → List Line
  | _, _, _, [] => []
  | j, bc, inB, raw :: rest =>
    (if (inB || containsChar (pyStrip raw) '{') &&
        decide (0 < braceUpdate bc (pyStrip raw)) then [pyStrip raw] else []) ++
    (if (inB || containsChar (pyStrip raw) '{') &&
        decide (braceUpdate bc (pyStrip raw) ≤ 0) && decide (i < j) then []
     else
       scanCatchFrom i (j + 1) (braceUpdate bc (pyStrip raw))
         (inB || containsChar (pyStrip raw) '{') rest)

/-- The block scanner: the `catch_content` list collected by
`_check_exception_handling` when started at zero-based index `i` (for a catch on
1-based line `i`, scanning starts at the following physical line). -/
def scan_catch_block (lines : List Line) (i : Nat) : List Line :=
  scanCatchFrom i i 0 false (lines.drop i)

/-- The `non_comment_content` comprehension: keep lines that are non-empty and are
not comment lines. -/
def nonCommentOnly (content : List Line) : List Line :=
  content.filter fun l =>
    !l.isEmpty && !listStartsWith ("//".data) l && !listStartsWith ("*".data) l &&
      !listStartsWith ("/*".data) l

/-- Findings `_check_exception_handling` emits for the 1-based line `i` with
stripped content `l`. -/
def excLine (lines : List Line) (i : Nat) (l : Line) : List CodeIssue :=
  (if containsSub ("catch".data) l && containsSub ("Exception".data) l then
     (if (nonCommentOnly (scan_catch_block lines i)).isEmpty then
        [⟨i, "error", "exception", "空的catch块", "至少应该记录异常或重新抛出"⟩]
      else [])
   else []) ++
  (if containsSub ("throws".data) l && containsSub ("Exception".data) l then
     (if containsSub ("throws Exception".data) l then
        [⟨i, "warning", "exception", "抛出了通用的Exception",
          "应该抛出更具体的异常类型，如IOException、IllegalArgumentException等"⟩]
      else [])
   else []) ++
  (if containsSub ("null".data) l && (containsSub ("==".data) l || containsSub ("!=".data) l) then
     (if containsSub ("null ==".data) l || containsSub ("null !=".data) l then
        [⟨i, "info", "null_safety", "使用了null == 或 null != 的比较方式",
          "建议使用Objects.equals()或Objects.isNull()/Objects.nonNull()"⟩]
      else [])
   else []) ++
  (if containsChar l '.' && !listStartsWith ("//".data) l &&
      !(containsSub (['i','m','p','o','r','t']) l || containsSub ("package".data) l ||
        containsSub ("class".data) l || containsSub ("interface".data) l) then
     (if 2 < countChar l '.' && !containsSub ("null".data) l && !containsSub ("if".data) l then
        [⟨i, "warning", "null_safety", "链式调用可能存在空指针异常风险", "建议添加空值检查或使用Optional"⟩]
      else [])
   else [])

/-- Findings `_check_performance` emits for the 1-based line `i` with stripped
content `l`. -/
def perfLine (i : Nat) (l : Line) : List CodeIssue :=
  (if containsChar l '+' && containsSub ("String".data) l then
     (if 3 < countChar l '+' then
        [⟨i, "warning", "performance", "多次字符串拼接可能影响性能", "考虑使用StringBuilder"⟩]
      else [])
   else []) ++
  (if containsSub ("for".data) l && (containsSub ("String".data) l || containsChar l '+') then
     [⟨i, "info", "performance", "循环中可能存在字符串操作", "检查是否需要使用StringBuilder"⟩]
   else [])

/-- Findings `_check_best_practices` emits for the 1-based line `i` with stripped
content `l`. -/
def bpLine (i : Nat) (l : Line) : List CodeIssue :=
  (if hasMagicNumber l && !(containsSub ("0x".data) l || containsSub ("0b".data) l) then
     [⟨i, "info", "style", "可能存在魔法数字", "考虑定义为常量"⟩]
   else []) ++
  (if containsSub ("TODO".data) l || containsSub ("FIXME".data) l then
     [⟨i, "info", "style", "发现TODO或FIXME标记", "及时处理待办事项"⟩]
   else [])

/-- The `for i, line in enumerate(lines, start)` pattern: run `f` on every line
paired with its 1-based number and concatenate the findings in order. -/
def perLines (f : Nat → Line → List CodeIssue) : Nat → List Line → List CodeIssue
  | _, [] => []
  | i, raw :: rest => f i raw ++ perLines f (i + 1) rest

/-- Embeds `JavaCodeReviewer._check_code_style`. -/
def check_code_style (lines : List Line) : List CodeIssue :=
  perLines (fun i raw => styleLine lines i raw (pyStrip raw)) 1 lines

/-- Embeds `JavaCodeReviewer._check_code_style_additional`. -/
def check_code_style_additional (lines : List Line) : List CodeIssue :=
  perLines (fun i raw => styleAddLine i (pyStrip raw)) 1 lines

/-- Embeds `JavaCodeReviewer._check_thread_safety`. -/
def check_thread_safety (lines : List Line) : List CodeIssue :=
  perLines (fun i raw => tsLine lines i (pyStrip raw)) 1 lines

/-- Embeds `JavaCodeReviewer._check_logging`. -/
def check_logging (lines : List Line) : List CodeIssue :=
  perLines (fun i raw => logLine lines i (pyStrip raw)) 1 lines

/-- Embeds `JavaCodeReviewer._check_exception_handling`. -/
def check_exception_handling (lines : List Line) : List CodeIssue :=
  perLines (fun i raw => excLine lines i (pyStrip raw)) 1 lines

/-- Embeds `JavaCodeReviewer._check_performance`. -/
def check_performance (lines : List Line) : List CodeIssue :=
  perLines (fun i raw => perfLine i (pyStrip raw)) 1 lines

/-- Embeds `JavaCodeReviewer._check_best_practices`. -/
def check_best_practices (lines : List Line) : List CodeIssue :=
  perLines (fun i raw => bpLine i (pyStrip raw)) 1 lines

/-- The full rule battery, in the order `review_file` runs the checks. -/
def run_checks (lines : List Line) : List CodeIssue :=
  check_code_style lines ++ check_code_style_additional lines ++ check_thread_safety lines ++
    check_logging lines ++ check_exception_handling lines ++ check_performance lines ++
      check_best_practices lines

/-- Embeds `os.path.basename` for POSIX paths. -/
def basename (p : String) : String :=
  (p.splitOn "/").getLastD ""

/-- Embeds `JavaCodeReviewer.review_file`.  The file content is either the decoded
text or, when reading/decoding fails, the exception message. -/
def review_file (st : ReviewerState) (file_path : String) (content : Except String String) :
    ReviewerState × ReviewResult :=
  match content with
  | Except.error e =>
      ({ st with
          issues := []
          current_file := file_path },
       { file_path := file_path
         file_name := basename file_path
         total_lines := 0
         issues := [⟨0, "error", "file", "无法读取文件: " ++ e, "检查文件路径和权限"⟩]
         score := 0
         summary := "文件读取失败" })
  | Except.ok c =>
      ({ st with
          issues := run_checks ((c.splitOn "\n").map String.data)
          current_file := file_path },
       { file_path := file_path
         file_name := basename file_path
         total_lines := ((c.splitOn "\n").map String.data).length
         issues := run_checks ((c.splitOn "\n").map String.data)
         score := calculate_score (run_checks ((c.splitOn "\n").map String.data))
                    ((c.splitOn "\n").map String.data).length
         summary := generate_summary (run_checks ((c.splitOn "\n").map String.data)) })

/-! ## Helper lemmas about the string primitives -/

lemma listStartsWith_iff (n : Line) : ∀ h : Line, listStartsWith n h = true ↔ ∃ t, h = n ++ t := by
  induction n with
  | nil => intro h; simp [listStartsWith]
  | cons a as ih =>
    intro h
    cases h with
    | nil =>
      simp [listStartsWith]
    | cons b bs =>
      rw [listStartsWith, Bool.and_eq_true, beq_iff_eq, ih]
      constructor
      · rintro ⟨rfl, t, rfl⟩
        exact ⟨t, rfl⟩
      · rintro ⟨t, ht⟩
        injection ht with ht1 ht2
        exact ⟨ht1.symm, t, ht2⟩

lemma containsSub_iff (n : Line) : ∀ h : Line, containsSub n h = true ↔ ∃ x y, h = x ++ n ++ y := by
  intro h
  induction h with
  | nil =>
    rw [containsSub]
    constructor
    · intro hn
      refine ⟨[], [], ?_⟩
      have : n = [] := by simpa [List.isEmpty_iff] using hn
      simp [this]
    · rintro ⟨x, y, hxy⟩
      have hx := List.append_eq_nil.1 hxy.symm
      have hn : n = [] := (List.append_eq_nil.1 hx.1).2
      simp [hn, List.isEmpty_iff]
  | cons c t ih =>
    rw [containsSub, Bool.or_eq_true, listStartsWith_iff, ih]
    constructor
    · rintro (⟨s, hs⟩ | ⟨x, y, rfl⟩)
      · exact ⟨[], s, by simpa using hs⟩
      · exact ⟨c :: x, y, by simp⟩
    · rintro ⟨x, y, hxy⟩
      cases x with
      | nil =>
        exact Or.inl ⟨y, by simpa using hxy⟩
      | cons d ds =>
        injection hxy with h1 h2
        exact Or.inr ⟨ds, y, h2⟩

lemma pyStrip_decomp (s : Line) :
    s = s.takeWhile isPySpace ++ pyStrip s ++
      ((s.dropWhile isPySpace).reverse.takeWhile isPySpace).reverse := by
  conv_lhs => rw [← List.takeWhile_append_dropWhile (p := isPySpace) (l := s)]
  rw [List.append_assoc]
  congr 1
  conv_lhs =>
    rw [← List.reverse_reverse (s.dropWhile isPySpace),
      ← List.takeWhile_append_dropWhile (p := isPySpace) (l := (s.dropWhile isPySpace).reverse)]
  rw [List.reverse_append]
  rfl

lemma containsSub_of_infix {n m h : Line} (h1 : containsSub n m = true)
    (h2 : ∃ x y, h = x ++ m ++ y) : containsSub n h = true := by
  obtain ⟨x1, y1, rfl⟩ := (containsSub_iff n m).1 h1
  obtain ⟨x, y, rfl⟩ := h2
  refine (containsSub_iff n _).2 ⟨x ++ x1, y1 ++ y, by simp⟩

lemma containsSub_of_strip {n s : Line} (h : containsSub n (pyStrip s) = true) :
    containsSub n s = true :=
  containsSub_of_infix h ⟨s.takeWhile isPySpace,
    ((s.dropWhile isPySpace).reverse.takeWhile isPySpace).reverse, pyStrip_decomp s⟩

lemma countChar_pos_iff (s : Line) (c : Char) : 0 < countChar s c ↔ containsChar s c = true := by
  rw [countChar, containsChar, List.countP_pos_iff, List.any_eq_true]

lemma containsChar_eq_false_of_countChar {s : Line} {c : Char} (h : countChar s c = 0) :
    containsChar s c = false := by
  rw [← Bool.not_eq_true, ← countChar_pos_iff]
  omega

lemma containsChar_eq_true_of_countChar {s : Line} {c : Char} (h : 0 < countChar s c) :
    containsChar s c = true := (countChar_pos_iff s c).1 h

/-! ## Helper lemmas about `perLines` and finding counts -/

lemma perLines_mem {f : Nat → Line → List CodeIssue} :
    ∀ {ls : List Line} {n : Nat} {iss : CodeIssue}, iss ∈ perLines f n ls →
      ∃ j raw, n ≤ j ∧ j < n + ls.length ∧ iss ∈ f j raw := by
  intro ls
  induction ls with
  | nil =>
    intro n iss h
    simp [perLines] at h
  | cons a as ih =>
    intro n iss h
    rw [perLines] at h
    rcases List.mem_append.1 h with h | h
    · exact ⟨n, a, le_refl n, by simp, h⟩
    · obtain ⟨j, raw, hj1, hj2, hmem⟩ := ih h
      refine ⟨j, raw, by omega, ?_, hmem⟩
      simp only [List.length_cons]
      omega

lemma perLines_countP_lt {f : Nat → Line → List CodeIssue}
    (hf : ∀ j raw iss, iss ∈ f j raw → iss.line_number = j)
    (p : CodeIssue → Bool) (ls : List Line) (n i : Nat) (hi : i < n) :
    (perLines f n ls).countP (fun iss => iss.line_number == i && p iss) = 0 := by
  rw [List.countP_eq_zero]
  intro iss hiss
  obtain ⟨j, raw, hj1, _, hmem⟩ := perLines_mem hiss
  have hln := hf j raw iss hmem
  rw [Bool.and_eq_true, beq_iff_eq]
  rintro ⟨hEq, -⟩
  omega

lemma perLines_countP {f : Nat → Line → List CodeIssue}
    (hf : ∀ j raw iss, iss ∈ f j raw → iss.line_number = j)
    (p : CodeIssue → Bool) :
    ∀ (ls : List Line) (n i : Nat), n ≤ i → i < n + ls.length →
      (perLines f n ls).countP (fun iss => iss.line_number == i && p iss) =
        (f i (ls.getD (i - n) [])).countP p := by
  intro ls
  induction ls with
  | nil =>
    intro n i h1 h2
    simp at h2
    omega
  | cons a as ih =>
    intro n i h1 h2
    rw [perLines, List.countP_append]
    by_cases hni : n = i
    · subst hni
      have hz := perLines_countP_lt hf p as (n + 1) n (by omega)
      rw [hz]
      have hcongr : (f n a).countP (fun iss => iss.line_number == n && p iss) =
          (f n a).countP p := by
        apply le_antisymm
        · refine List.countP_mono_left fun x hx hpx => ?_
          rw [Bool.and_eq_true] at hpx
          exact hpx.2
        · refine List.countP_mono_left fun x hx hpx => ?_
          rw [Bool.and_eq_true, beq_iff_eq]
          exact ⟨hf n a x hx, hpx⟩
      rw [hcongr]
      simp
    · have hlt : n < i := by omega
      have hz : (f n a).countP (fun iss => iss.line_number == i && p iss) = 0 := by
        rw [List.countP_eq_zero]
        intro iss hiss
        have hln := hf n a iss hiss
        rw [Bool.and_eq_true, beq_iff_eq]
        rintro ⟨hEq, -⟩
        omega
      rw [hz]
      have hrec := ih (n + 1) i (by omega) (by simp only [List.length_cons] at h2; omega)
      rw [hrec]
      have hidx : i - n = (i - (n + 1)) + 1 := by omega
      rw [hidx, List.getD_cons_succ]
      omega

lemma countP_ite_singleton (p : CodeIssue → Bool) (c : Prop) [Decidable c] (a : CodeIssue) :
    List.countP p (if c then [a] else []) = if c then (if p a then 1 else 0) else 0 := by
  by_cases h : c <;> simp [h, List.countP_cons]

lemma countP_ite_ite_singleton (p : CodeIssue → Bool) (c1 c2 : Prop) [Decidable c1] [Decidable c2]
    (a : CodeIssue) :
    List.countP p (if c1 then (if c2 then [a] else []) else []) =
      if c1 ∧ c2 then (if p a then 1 else 0) else 0 := by
  by_cases h1 : c1 <;> by_cases h2 : c2 <;> simp [h1, h2, List.countP_cons]

/-! ## Per-line classification lemmas: every emitted finding carries its own
1-based line number and one of the three severities -/

lemma styleLine_shape {lines : List Line} {i : Nat} {original l : Line} {iss : CodeIssue}
    (h : iss ∈ styleLine lines i original l) :
    iss.line_number = i ∧ iss.severity = "warning" := by
  unfold styleLine at h
  repeat' split at h
  all_goals simp only [List.mem_singleton, List.not_mem_nil] at h
  all_goals subst h
  all_goals exact ⟨rfl, rfl⟩

lemma styleAddLine_shape {i : Nat} {l : Line} {iss : CodeIssue}
    (h : iss ∈ styleAddLine i l) :
    iss.line_number = i ∧ (iss.severity = "info" ∨ iss.severity = "warning") := by
  unfold styleAddLine namingBlock at h
  rcases List.mem_append.1 h with h | h
  · repeat' split at h
    all_goals simp only [List.mem_singleton, List.not_mem_nil] at h
    all_goals subst h
    all_goals exact ⟨rfl, Or.inl rfl⟩
  · repeat' split at h
    all_goals simp only [List.mem_singleton, List.not_mem_nil] at h
    all_goals subst h
    all_goals exact ⟨rfl, Or.inr rfl⟩

lemma tsLine_shape {lines : List Line} {i : Nat} {l : Line} {iss : CodeIssue}
    (h : iss ∈ tsLine lines i l) :
    iss.line_number = i ∧ (iss.severity = "info" ∨ iss.severity = "error") := by
  unfold tsLine at h
  rcases List.mem_append.1 h with h | h
  · rcases List.mem_append.1 h with h | h
    all_goals repeat' split at h
    all_goals simp only [List.mem_singleton, List.not_mem_nil] at h
    all_goals subst h
    all_goals exact ⟨rfl, Or.inl rfl⟩
  · repeat' split at h
    all_goals simp only [List.mem_singleton, List.not_mem_nil] at h
    all_goals subst h
    all_goals exact ⟨rfl, Or.inr rfl⟩

lemma logLine_shape {lines : List Line} {i : Nat} {l : Line} {iss : CodeIssue}
    (h : iss ∈ logLine lines i l) :
    iss.line_number = i ∧ iss.severity = "warning" := by
  unfold logLine at h
  rcases List.mem_append.1 h with h | h
  · rcases List.mem_append.1 h with h | h
    all_goals repeat' split at h
    all_goals simp only [List.mem_singleton, List.not_mem_nil] at h
    all_goals subst h
    all_goals exact ⟨rfl, rfl⟩
  · repeat' split at h
    all_goals simp only [List.mem_singleton, List.not_mem_nil] at h
    all_goals subst h
    all_goals exact ⟨rfl, rfl⟩

lemma excLine_shape {lines : List Line} {i : Nat} {l : Line} {iss : CodeIssue}
    (h : iss ∈ excLine lines i l) :
    iss.line_number = i ∧
      (iss.severity = "error" ∨ iss.severity = "warning" ∨ iss.severity = "info") := by
  unfold excLine at h
  rcases List.mem_append.1 h with h | h
  · rcases List.mem_append.1 h with h | h
    · rcases List.mem_append.1 h with h | h
      · repeat' split at h
        all_goals simp only [List.mem_singleton, List.not_mem_nil] at h
        all_goals subst h
        all_goals exact ⟨rfl, Or.inl rfl⟩
      · repeat' split at h
        all_goals simp only [List.mem_singleton, List.not_mem_nil] at h
        all_goals subst h
        all_goals exact ⟨rfl, Or.inr (Or.inl rfl)⟩
    · repeat' split at h
      all_goals simp only [List.mem_singleton, List.not_mem_nil] at h
      all_goals subst h
      all_goals exact ⟨rfl, Or.inr (Or.inr rfl)⟩
  · repeat' split at h
    all_goals simp only [List.mem_singleton, List.not_mem_nil] at h
    all_goals subst h
    all_goals exact ⟨rfl, Or.inr (Or.inl rfl)⟩

lemma perfLine_shape {i : Nat} {l : Line} {iss : CodeIssue}
    (h : iss ∈ perfLine i l) :
    iss.line_number = i ∧ (iss.severity = "warning" ∨ iss.severity = "info") := by
  unfold perfLine at h
  rcases List.mem_append.1 h with h | h
  · repeat' split at h
    all_goals simp only [List.mem_singleton, List.not_mem_nil] at h
    all_goals subst h
    all_goals exact ⟨rfl, Or.inl rfl⟩
  · repeat' split at h
    all_goals simp only [List.mem_singleton, List.not_mem_nil] at h
    all_goals subst h
    all_goals exact ⟨rfl, Or.inr rfl⟩

lemma bpLine_shape {i : Nat} {l : Line} {iss : CodeIssue}
    (h : iss ∈ bpLine i l) :
    iss.line_number = i ∧ iss.severity = "info" := by
  unfold bpLine at h
  rcases List.mem_append.1 h with h | h
  all_goals repeat' split at h
  all_goals simp only [List.mem_singleton, List.not_mem_nil] at h
  all_goals subst h
  all_goals exact ⟨rfl, rfl⟩

/-! ## Rounding lemmas -/

lemma round_mono_q {x y : ℚ} (h : x ≤ y) : round x ≤ round y := by
  rw [round_eq, round_eq]
  exact Int.floor_mono (by linarith)

lemma roundTo1_mono {x y : ℚ} (h : x ≤ y) : roundTo1 x ≤ roundTo1 y := by
  unfold roundTo1
  have h1 : round (10 * x) ≤ round (10 * y) := round_mono_q (by linarith)
  have h2 : ((round (10 * x) : ℤ) : ℚ) ≤ ((round (10 * y) : ℤ) : ℚ) := by exact_mod_cast h1
  linarith

lemma roundTo1_nonneg {x : ℚ} (h : 0 ≤ x) : 0 ≤ roundTo1 x := by
  unfold roundTo1
  have h1 : round (0 : ℚ) ≤ round (10 * x) := round_mono_q (by linarith)
  rw [round_zero] at h1
  have h2 : (0 : ℚ) ≤ ((round (10 * x) : ℤ) : ℚ) := by exact_mod_cast h1
  linarith

lemma roundTo1_le_100 {x : ℚ} (h : x ≤ 100) : roundTo1 x ≤ 100 := by
  unfold roundTo1
  have h0 : (10 * x : ℚ) ≤ ((1000 : ℤ) : ℚ) := by push_cast; linarith
  have h1 := round_mono_q h0
  rw [round_intCast] at h1
  have h2 : ((round (10 * x) : ℤ) : ℚ) ≤ 1000 := by exact_mod_cast h1
  linarith

lemma roundTo1_100 : roundTo1 (100 : ℚ) = 100 := by
  unfold roundTo1
  have h : (10 * (100 : ℚ)) = ((1000 : ℤ) : ℚ) := by norm_num
  rw [h, round_intCast]
  norm_num

/-! ## Count-evaluation lemmas for individual per-line rule functions -/

lemma namingBlock_sev {i : Nat} {l : Line} {x : CodeIssue} (h : x ∈ namingBlock i l) :
    x.severity = "warning" := by
  unfold namingBlock at h
  repeat' split at h
  all_goals simp only [List.mem_singleton, List.not_mem_nil] at h
  all_goals subst h
  all_goals rfl

lemma styleAddLine_countP (i : Nat) (l : Line) :
    (styleAddLine i l).countP
        (fun iss => iss.severity == "info" && iss.category == "style") =
      if 120 < l.length then 1 else 0 := by
  unfold styleAddLine
  rw [List.countP_append, countP_ite_singleton]
  have hz : (namingBlock i l).countP
      (fun iss => iss.severity == "info" && iss.category == "style") = 0 := by
    rw [List.countP_eq_zero]
    intro x hx
    rw [namingBlock_sev hx]
    simp
  rw [hz]
  split_ifs <;> simp_all

lemma tsLine_countP_err (lines : List Line) (i : Nat) (l : Line)
    (hps : matchPrivateStatic l = true)
    (hsdf : containsSub ("SimpleDateFormat".data) l = true)
    (htl : containsSub ("ThreadLocal".data) l = false) :
    (tsLine lines i l).countP
        (fun iss => iss.severity == "error" && iss.category == "thread_safety") =
      if (threadSafetyWindow i lines.length).any
          (fun j => containsSub ("ThreadLocal<SimpleDateFormat>".data) (lines.getD j [])) then 0
      else 1 := by
  unfold tsLine
  rw [List.countP_append, List.countP_append]
  rw [countP_ite_ite_singleton, countP_ite_ite_singleton]
  rw [htl, hps, hsdf]
  rw [if_neg (by simp)]
  split_ifs <;> simp_all [List.countP_cons]

lemma tsLine_countP_info (lines : List Line) (i : Nat) (l : Line)
    (htlsdf : containsSub ("ThreadLocal<SimpleDateFormat>".data) l = true) :
    (tsLine lines i l).countP
        (fun iss => iss.severity == "info" && (iss.category == "thread_safety" &&
          iss.message == "使用了ThreadLocal包装SimpleDateFormat")) = 1 := by
  have htl : containsSub ("ThreadLocal".data) l = true :=
    containsSub_of_infix (by decide) ((containsSub_iff _ _).1 htlsdf)
  unfold tsLine
  rw [List.countP_append, List.countP_append]
  rw [countP_ite_ite_singleton, countP_ite_ite_singleton]
  rw [htl, htlsdf]
  split_ifs <;> simp_all [List.countP_cons]

lemma excLine_countP_empty_catch (lines : List Line) (i : Nat) (l : Line)
    (hc : containsSub ("catch".data) l = true)
    (he : containsSub ("Exception".data) l = true) :
    (excLine lines i l).countP
        (fun iss => iss.severity == "error" && (iss.category == "exception" &&
          iss.message == "空的catch块")) =
      if (nonCommentOnly (scan_catch_block lines i)).isEmpty then 1 else 0 := by
  unfold excLine
  rw [List.countP_append, List.countP_append, List.countP_append]
  rw [countP_ite_ite_singleton, countP_ite_ite_singleton, countP_ite_ite_singleton,
    countP_ite_ite_singleton]
  rw [hc, he]
  split_ifs <;> simp_all [List.countP_cons]

/-! ## Block-scanner lemmas -/

lemma scanCatchFrom_no_open (i : Nat) :
    ∀ (ls : List Line) (j : Nat) (bc : Int),
      (∀ l ∈ ls, containsChar (pyStrip l) '{' = false) →
      scanCatchFrom i j bc false ls = [] := by
  intro ls
  induction ls with
  | nil =>
    intro j bc h
    rfl
  | cons a as ih =>
    intro j bc h
    have ha : containsChar (pyStrip a) '{' = false := h a (List.mem_cons_self a as)
    simp only [scanCatchFrom, ha, Bool.or_false, Bool.false_and, Bool.false_eq_true, if_false,
      List.nil_append]
    exact ih (j + 1) (braceUpdate bc (pyStrip a)) fun x hx => h x (List.mem_cons_of_mem a hx)

lemma scanCatchFrom_mid (i : Nat) (b : Line) (post : List Line)
    (hb1 : containsChar (pyStrip b) '{' = false)
    (hb2 : 0 < countChar (pyStrip b) '}') :
    ∀ (mid : List Line) (j : Nat), i < j →
      (∀ m ∈ mid, containsChar (pyStrip m) '{' = false ∧ containsChar (pyStrip m) '}' = false) →
      scanCatchFrom i j 1 true (mid ++ b :: post) = mid.map pyStrip := by
  intro mid
  induction mid with
  | nil =>
    intro j hj h
    have hcb : containsChar (pyStrip b) '}' = true := (countChar_pos_iff _ _).1 hb2
    have hbu : braceUpdate 1 (pyStrip b) ≤ 0 := by
      unfold braceUpdate
      rw [hb1, hcb]
      simp only [Bool.false_eq_true, if_false, if_true]
      omega
    have hd1 : decide (0 < braceUpdate 1 (pyStrip b)) = false := by
      simp only [decide_eq_false_iff_not]
      omega
    have hd2 : decide (braceUpdate 1 (pyStrip b) ≤ 0) = true := by
      simp only [decide_eq_true_eq]
      exact hbu
    have hd3 : decide (i < j) = true := by simp [hj]
    simp only [List.nil_append, scanCatchFrom, hd1, hd2, hd3, Bool.true_or, Bool.and_false,
      Bool.and_true, Bool.false_eq_true, if_false, if_true, List.map_nil]
  | cons m ms ih =>
    intro j hj h
    obtain ⟨hm1, hm2⟩ := h m (List.mem_cons_self m ms)
    have hbu : braceUpdate 1 (pyStrip m) = 1 := by
      unfold braceUpdate
      rw [hm1, hm2]
      simp
    simp only [List.cons_append, scanCatchFrom, hbu, hm1, Bool.true_or, List.map_cons]
    norm_num
    exact ih (j + 1) (by omega) fun x hx => h x (List.mem_cons_of_mem m hx)

/-! ## Soundness of each checker: severities and line-number bounds -/

lemma check_code_style_sound {lines : List Line} {iss : CodeIssue}
    (h : iss ∈ check_code_style lines) :
    (iss.severity = "error" ∨ iss.severity = "warning" ∨ iss.severity = "info") ∧
      1 ≤ iss.line_number ∧ iss.line_number ≤ lines.length := by
  unfold check_code_style at h
  obtain ⟨j, raw, hj1, hj2, hmem⟩ := perLines_mem h
  obtain ⟨hln, hsev⟩ := styleLine_shape hmem
  exact ⟨Or.inr (Or.inl hsev), by omega, by omega⟩

lemma check_code_style_additional_sound {lines : List Line} {iss : CodeIssue}
    (h : iss ∈ check_code_style_additional lines) :
    (iss.severity = "error" ∨ iss.severity = "warning" ∨ iss.severity = "info") ∧
      1 ≤ iss.line_number ∧ iss.line_number ≤ lines.length := by
  unfold check_code_style_additional at h
  obtain ⟨j, raw, hj1, hj2, hmem⟩ := perLines_mem h
  obtain ⟨hln, hsev⟩ := styleAddLine_shape hmem
  refine ⟨?_, by omega, by omega⟩
  rcases hsev with hsev | hsev
  · exact Or.inr (Or.inr hsev)
  · exact Or.inr (Or.inl hsev)

lemma check_thread_safety_sound {lines : List Line} {iss : CodeIssue}
    (h : iss ∈ check_thread_safety lines) :
    (iss.severity = "error" ∨ iss.severity = "warning" ∨ iss.severity = "info") ∧
      1 ≤ iss.line_number ∧ iss.line_number ≤ lines.length := by
  unfold check_thread_safety at h
  obtain ⟨j, raw, hj1, hj2, hmem⟩ := perLines_mem h
  obtain ⟨hln, hsev⟩ := tsLine_shape hmem
  refine ⟨?_, by omega, by omega⟩
  rcases hsev with hsev | hsev
  · exact Or.inr (Or.inr hsev)
  · exact Or.inl hsev

lemma check_logging_sound {lines : List Line} {iss : CodeIssue}
    (h : iss ∈ check_logging lines) :
    (iss.severity = "error" ∨ iss.severity = "warning" ∨ iss.severity = "info") ∧
      1 ≤ iss.line_number ∧ iss.line_number ≤ lines.length := by
  unfold check_logging at h
  obtain ⟨j, raw, hj1, hj2, hmem⟩ := perLines_mem h
  obtain ⟨hln, hsev⟩ := logLine_shape hmem
  exact ⟨Or.inr (Or.inl hsev), by omega, by omega⟩

lemma check_exception_handling_sound {lines : List Line} {iss : CodeIssue}
    (h : iss ∈ check_exception_handling lines) :
    (iss.severity = "error" ∨ iss.severity = "warning" ∨ iss.severity = "info") ∧
      1 ≤ iss.line_number ∧ iss.line_number ≤ lines.length := by
  unfold check_exception_handling at h
  obtain ⟨j, raw, hj1, hj2, hmem⟩ := perLines_mem h
  obtain ⟨hln, hsev⟩ := excLine_shape hmem
  exact ⟨hsev, by omega, by omega⟩

lemma check_performance_sound {lines : List Line} {iss : CodeIssue}
    (h : iss ∈ check_performance lines) :
    (iss.severity = "error" ∨ iss.severity = "warning" ∨ iss.severity = "info") ∧
      1 ≤ iss.line_number ∧ iss.line_number ≤ lines.length := by
  unfold check_performance at h
  obtain ⟨j, raw, hj1, hj2, hmem⟩ := perLines_mem h
  obtain ⟨hln, hsev⟩ := perfLine_shape hmem
  refine ⟨?_, by omega, by omega⟩
  rcases hsev with hsev | hsev
  · exact Or.inr (Or.inl hsev)
  · exact Or.inr (Or.inr hsev)

lemma check_best_practices_sound {lines : List Line} {iss : CodeIssue}
    (h : iss ∈ check_best_practices lines) :
    (iss.severity = "error" ∨ iss.severity = "warning" ∨ iss.severity = "info") ∧
      1 ≤ iss.line_number ∧ iss.line_number ≤ lines.length := by
  unfold check_best_practices at h
  obtain ⟨j, raw, hj1, hj2, hmem⟩ := perLines_mem h
  obtain ⟨hln, hsev⟩ := bpLine_shape hmem
  exact ⟨Or.inr (Or.inr hsev), by omega, by omega⟩

/-! ## Score bound lemmas -/

lemma max_sub_min_le (N M : ℚ) (hN : 0 ≤ N) (hM : 0 ≤ M) :
    max 0 (100 - min (N / M) 1 * 100) ≤ 100 := by
  apply max_le (by norm_num)
  have hmin : (0 : ℚ) ≤ min (N / M) 1 := le_min (div_nonneg hN hM) (by norm_num)
  nlinarith

lemma calculate_score_nonneg (issues : List CodeIssue) (tl : Nat) :
    0 ≤ calculate_score issues tl := by
  unfold calculate_score
  split_ifs
  · norm_num
  · exact roundTo1_nonneg (le_max_left 0 _)

lemma calculate_score_le_100 (issues : List CodeIssue) (tl : Nat) :
    calculate_score issues tl ≤ 100 := by
  unfold calculate_score
  split_ifs
  · norm_num
  · exact roundTo1_le_100 (max_sub_min_le _ _ (by positivity) (by positivity))

lemma score_core_anti {nA nB M : ℚ} (hM : 0 < M) (h : nA ≤ nB) :
    max 0 (100 - min (nB / M) 1 * 100) ≤ max 0 (100 - min (nA / M) 1 * 100) := by
  have hdiv : nA / M ≤ nB / M := by gcongr
  have hmin : min (nA / M) 1 ≤ min (nB / M) 1 := min_le_min hdiv le_rfl
  have hmul := mul_le_mul_of_nonneg_right hmin (by norm_num : (0 : ℚ) ≤ 100)
  exact max_le_max le_rfl (by linarith)

/-! ## Claim theorems -/

/-- Claim C1: for every findings list and total line count the scorer returns exactly
`max(0, 100 - min(penalty / max(total_lines,1), 1.0) * 100)` rounded to one decimal,
with `penalty = 10*#error + 5*#warning + 1*#info`, and for an empty findings list it
returns exactly 100. -/
theorem calculate_score_eq_spec_formula (issues : List CodeIssue) (tl : Nat) :
    calculate_score issues tl = scoreSpec issues tl ∧ calculate_score [] tl = 100 := by
  constructor
  · cases issues with
    | nil =>
      have h1 : calculate_score [] tl = 100 := by simp [calculate_score]
      have h2 : scoreSpec [] tl = 100 := by
        unfold scoreSpec
        simp only [List.countP_nil, Nat.cast_zero, mul_zero, zero_add, add_zero, zero_div]
        rw [min_eq_left (by norm_num : (0 : ℚ) ≤ 1)]
        rw [zero_mul, sub_zero]
        rw [max_eq_right (by norm_num : (0 : ℚ) ≤ 100)]
        exact roundTo1_100
      rw [h1, h2]
    | cons a as =>
      unfold calculate_score scoreSpec
      rw [if_neg (by simp)]
      have hA : (((a :: as).countP (fun x => x.severity == "error") : ℚ)) * 10 +
            (((a :: as).countP (fun x => x.severity == "warning") : ℚ)) * 5 +
            (((a :: as).countP (fun x => x.severity == "info") : ℚ)) * 1 =
          10 * (((a :: as).countP (fun x => x.severity == "error") : ℚ)) +
            5 * (((a :: as).countP (fun x => x.severity == "warning") : ℚ)) +
            1 * (((a :: as).countP (fun x => x.severity == "info") : ℚ)) := by ring
      rw [hA]
  · simp [calculate_score]

/-- Claim C2: when the file cannot be read, `review_file` still returns (never raises)
a `ReviewResult` with `total_lines = 0`, exactly one finding, that finding of severity
`error`, `score = 0`, and the fixed failure summary, so one unreadable file never
aborts a batch. -/
theorem review_file_unreadable_degrades_gracefully (st : ReviewerState) (path e : String) :
    ((review_file st path (Except.error e)).2).total_lines = 0 ∧
    ((review_file st path (Except.error e)).2).issues.length = 1 ∧
    (((review_file st path (Except.error e)).2).issues.all fun iss =>
      iss.severity == "error") = true ∧
    ((review_file st path (Except.error e)).2).score = 0 ∧
    ((review_file st path (Except.error e)).2).summary = "文件读取失败" :=
  ⟨rfl, rfl, rfl, rfl, rfl⟩

/-- Claim C3 counterexample: a `ThreadLocal<SimpleDateFormat>` declaration exactly 20
lines above the `private static SimpleDateFormat` declaration (1-based lines 1 and 21)
is inside every reasonable reading of a "±20-line window", yet the code still emits the
thread-safety error, because its window `range(max(0, i-20), min(len, i+20))` over
0-based indices reaches only 19 lines above the declaration. -/
theorem thread_safety_window_cex :
    (check_thread_safety ("ThreadLocal<SimpleDateFormat> FMT;".data ::
        (List.replicate 19 ([] : Line) ++ ["private static SimpleDateFormat sdf;".data]))).countP
      (fun iss => iss.line_number == 21 &&
        (iss.severity == "error" && iss.category == "thread_safety")) = 1 ∧
    ("ThreadLocal<SimpleDateFormat> FMT;".data ::
        (List.replicate 19 ([] : Line) ++
          ["private static SimpleDateFormat sdf;".data])).length = 21 := by
  constructor
  · decide
  · decide

/-- Claim C3 (amended): a stripped line matching `private static` whose declared type
mentions `SimpleDateFormat` with no `ThreadLocal` on that line yields exactly one
error finding of category `thread_safety`, unless some line of the window from 19
lines above to 20 lines below the declaration (0-based indices
`max(0, i-20) ≤ j < min(len, i+20)` for the declaration on 1-based line `i`) contains
`ThreadLocal<SimpleDateFormat>`, in which case no such error is emitted and the
`ThreadLocal` declaration line itself yields exactly one info finding of category
`thread_safety` noting correct ThreadLocal usage. -/
theorem thread_safety_rule_amended (lines : List Line) (i : Nat)
    (h1 : 1 ≤ i) (h2 : i ≤ lines.length)
    (hps : matchPrivateStatic (pyStrip (lines.getD (i - 1) [])) = true)
    (hsdf : containsSub ("SimpleDateFormat".data) (pyStrip (lines.getD (i - 1) [])) = true)
    (htl : containsSub ("ThreadLocal".data) (pyStrip (lines.getD (i - 1) [])) = false) :
    ((∀ j ∈ threadSafetyWindow i lines.length,
        containsSub ("ThreadLocal<SimpleDateFormat>".data) (lines.getD j []) = false) →
      (check_thread_safety lines).countP
        (fun iss => iss.line_number == i &&
          (iss.severity == "error" && iss.category == "thread_safety")) = 1) ∧
    (∀ j ∈ threadSafetyWindow i lines.length,
      containsSub ("ThreadLocal<SimpleDateFormat>".data) (pyStrip (lines.getD j [])) = true →
        (check_thread_safety lines).countP
          (fun iss => iss.line_number == i &&
            (iss.severity == "error" && iss.category == "thread_safety")) = 0 ∧
        (check_thread_safety lines).countP
          (fun iss => iss.line_number == (j + 1) &&
            (iss.severity == "info" && (iss.category == "thread_safety" &&
              iss.message == "使用了ThreadLocal包装SimpleDateFormat"))) = 1) := by
  have hf : ∀ (j : Nat) (raw : Line) (iss : CodeIssue),
      iss ∈ tsLine lines j (pyStrip raw) → iss.line_number = j :=
    fun j raw iss hm => (tsLine_shape hm).1
  constructor
  · intro hno
    unfold check_thread_safety
    rw [perLines_countP hf _ lines 1 i h1 (by omega)]
    rw [tsLine_countP_err lines i _ hps hsdf htl]
    have hany : ((threadSafetyWindow i lines.length).any fun j =>
        containsSub ("ThreadLocal<SimpleDateFormat>".data) (lines.getD j [])) = false := by
      rw [← Bool.not_eq_true, List.any_eq_true]
      rintro ⟨j, hj, hcc⟩
      rw [hno j hj] at hcc
      exact absurd hcc (by simp)
    rw [hany]
    simp
  · intro j hj hstr
    have hj' := hj
    unfold threadSafetyWindow at hj'
    rw [List.mem_range'_1] at hj'
    have hraw : containsSub ("ThreadLocal<SimpleDateFormat>".data) (lines.getD j []) = true :=
      containsSub_of_strip hstr
    have hany : ((threadSafetyWindow i lines.length).any fun k =>
        containsSub ("ThreadLocal<SimpleDateFormat>".data) (lines.getD k [])) = true :=
      List.any_eq_true.2 ⟨j, hj, hraw⟩
    constructor
    · unfold check_thread_safety
      rw [perLines_countP hf _ lines 1 i h1 (by omega)]
      rw [tsLine_countP_err lines i _ hps hsdf htl, hany]
      simp
    · unfold check_thread_safety
      rw [perLines_countP hf _ lines 1 (j + 1) (by omega) (by omega)]
      have hidx : (j + 1) - 1 = j := by omega
      rw [hidx]
      exact tsLine_countP_info lines (j + 1) _ hstr

/-- Claim C3 (amended) witness: a lone `private static SimpleDateFormat sdf;` line
with no ThreadLocal anywhere yields exactly one thread-safety error. -/
theorem thread_safety_rule_amended_witness :
    (check_thread_safety ["private static SimpleDateFormat sdf;".data]).countP
      (fun iss => iss.line_number == 1 &&
        (iss.severity == "error" && iss.category == "thread_safety")) = 1 := by
  have h := thread_safety_rule_amended ["private static SimpleDateFormat sdf;".data] 1
    (by norm_num) (by norm_num) (by decide) (by decide) (by decide)
  exact h.1 (by decide)

/-- Claim C4 counterexample: scanning from a start line that consists of a single `{`
whose matching `}` appears three lines later returns the stripped start line and the
comment line as well, not just the intervening non-comment lines. -/
theorem block_scanner_cex :
    scan_catch_block [['{'], "// c".data, "x();".data, ['}']] 0 =
      [['{'], "// c".data, "x();".data] ∧
    scan_catch_block [['{'], "// c".data, "x();".data, ['}']] 0 ≠ ["x();".data] := by
  constructor
  · decide
  · decide

/-- Claim C4 (amended): scanning starts at the given index; when the start line holds
exactly one `{` and no `}`, the following lines hold no braces, and the next braced
line closes the block with at least one `}` and no `{`, the collected content is the
stripped start line followed by all stripped intervening lines, comment lines
included (comment filtering happens in the caller); and when no line at or after the
start index contains `{`, the scan terminates with empty content, which callers
checking emptiness see as an empty block. -/
theorem block_scanner_amended :
    (∀ (pre : List Line) (a : Line) (mid : List Line) (b : Line) (post : List Line),
      countChar (pyStrip a) '{' = 1 → countChar (pyStrip a) '}' = 0 →
      (∀ m ∈ mid, containsChar (pyStrip m) '{' = false ∧ containsChar (pyStrip m) '}' = false) →
      containsChar (pyStrip b) '{' = false → 0 < countChar (pyStrip b) '}' →
      scan_catch_block (pre ++ a :: (mid ++ b :: post)) pre.length =
        pyStrip a :: mid.map pyStrip) ∧
    (∀ (lines : List Line) (i : Nat),
      (∀ l ∈ lines.drop i, containsChar (pyStrip l) '{' = false) →
      scan_catch_block lines i = []) := by
  constructor
  · intro pre a mid b post ha1 ha2 hmid hb1 hb2
    unfold scan_catch_block
    rw [List.drop_left]
    have hca : containsChar (pyStrip a) '{' = true := (countChar_pos_iff _ _).1 (by omega)
    have hcc : containsChar (pyStrip a) '}' = false := containsChar_eq_false_of_countChar ha2
    have hbu : braceUpdate 0 (pyStrip a) = 1 := by
      unfold braceUpdate
      rw [hca, hcc, ha1]
      simp
    simp only [scanCatchFrom, hca, hbu, Bool.false_or]
    norm_num
    rw [scanCatchFrom_mid pre.length b post hb1 hb2 mid (pre.length + 1) (by omega) hmid]
  · intro lines i h
    unfold scan_catch_block
    exact scanCatchFrom_no_open i (lines.drop i) i 0 h

/-- Claim C4 (amended) witness: a `{` start line, one plain statement line, then `}`
collects the start line and the statement. -/
theorem block_scanner_amended_witness :
    scan_catch_block [['{'], "x();".data, ['}']] 0 = [['{'], "x();".data] := by
  have h := block_scanner_amended.1 [] ['{'] ["x();".data] ['}'] []
    (by decide) (by decide) (by decide) (by decide) (by decide)
  exact h.trans (by decide)

/-- Claim C5: every stripped line holding both `catch` and `Exception` yields exactly
one error finding of category `exception` with the empty-catch message precisely when
the scanned block content, after discarding empty and comment-only lines, is empty. -/
theorem empty_catch_rule (lines : List Line) (i : Nat) (h1 : 1 ≤ i) (h2 : i ≤ lines.length)
    (hc : containsSub ("catch".data) (pyStrip (lines.getD (i - 1) [])) = true)
    (he : containsSub ("Exception".data) (pyStrip (lines.getD (i - 1) [])) = true) :
    (check_exception_handling lines).countP
      (fun iss => iss.line_number == i &&
        (iss.severity == "error" && (iss.category == "exception" &&
          iss.message == "空的catch块"))) =
      if (nonCommentOnly (scan_catch_block lines i)).isEmpty then 1 else 0 := by
  have hf : ∀ (j : Nat) (raw : Line) (iss : CodeIssue),
      iss ∈ excLine lines j (pyStrip raw) → iss.line_number = j :=
    fun j raw iss hm => (excLine_shape hm).1
  unfold check_exception_handling
  rw [perLines_countP hf _ lines 1 i h1 (by omega)]
  exact excLine_countP_empty_catch lines i _ hc he

/-- Claim C5 witness: `catch (Exception e) {` followed by a blank line and `}` yields
exactly one empty-catch error finding. -/
theorem empty_catch_rule_witness :
    (check_exception_handling ["catch (Exception e) \x7b".data, "   ".data, ['}']]).countP
      (fun iss => iss.line_number == 1 &&
        (iss.severity == "error" && (iss.category == "exception" &&
          iss.message == "空的catch块"))) = 1 := by
  have h := empty_catch_rule ["catch (Exception e) \x7b".data, "   ".data, ['}']] 1
    (by norm_num) (by norm_num) (by decide) (by decide)
  exact h.trans (by decide)

set_option maxRecDepth 40000 in
/-- Claim C6 counterexample: a raw line of 121 characters (120 letters plus one
trailing space) yields zero info findings of category `style`, because the rule
measures the length of the stripped line (120), not of the raw line. -/
theorem line_length_cex :
    (check_code_style_additional [List.replicate 120 'a' ++ [' ']]).countP
      (fun iss => iss.severity == "info" && iss.category == "style") = 0 ∧
    (List.replicate 120 'a' ++ [' '] : Line).length = 121 := by
  constructor
  · decide
  · decide

/-- Claim C6 (amended): a line yields exactly one info finding of category `style`
from the line-length rule when its stripped content is longer than 120 characters,
and zero such findings when the stripped content has length at most 120; in
particular a 121-character line without surrounding whitespace yields one and a
120-character line yields none. -/
theorem line_length_rule_amended (lines : List Line) (i : Nat)
    (h1 : 1 ≤ i) (h2 : i ≤ lines.length) :
    (check_code_style_additional lines).countP
      (fun iss => iss.line_number == i &&
        (iss.severity == "info" && iss.category == "style")) =
      if 120 < (pyStrip (lines.getD (i - 1) [])).length then 1 else 0 := by
  have hf : ∀ (j : Nat) (raw : Line) (iss : CodeIssue),
      iss ∈ styleAddLine j (pyStrip raw) → iss.line_number = j :=
    fun j raw iss hm => (styleAddLine_shape hm).1
  unfold check_code_style_additional
  rw [perLines_countP hf _ lines 1 i h1 (by omega)]
  exact styleAddLine_countP i _

set_option maxRecDepth 40000 in
/-- Claim C6 (amended) witness: a line of exactly 121 letters yields exactly one
line-length info finding. -/
theorem line_length_rule_amended_witness :
    (check_code_style_additional [List.replicate 121 'a']).countP
      (fun iss => iss.line_number == 1 &&
        (iss.severity == "info" && iss.category == "style")) = 1 := by
  have h := line_length_rule_amended [List.replicate 121 'a'] 1 (by norm_num) (by norm_num)
  exact h.trans (by decide)

/-- Claim C7: the score is always between 0 and 100, and with `total_lines` fixed,
appending one more error, warning, or info finding never increases it. -/
theorem score_bounds_and_monotone (issues : List CodeIssue) (tl : Nat) (x : CodeIssue)
    (hx : x.severity = "error" ∨ x.severity = "warning" ∨ x.severity = "info") :
    0 ≤ calculate_score issues tl ∧ calculate_score issues tl ≤ 100 ∧
      calculate_score (issues ++ [x]) tl ≤ calculate_score issues tl := by
  refine ⟨calculate_score_nonneg issues tl, calculate_score_le_100 issues tl, ?_⟩
  cases issues with
  | nil =>
    have h100 : calculate_score [] tl = 100 := by simp [calculate_score]
    rw [h100]
    exact calculate_score_le_100 ([] ++ [x]) tl
  | cons a as =>
    unfold calculate_score
    rw [if_neg (by simp), if_neg (by simp)]
    apply roundTo1_mono
    rw [List.countP_append (fun y => y.severity == "error") (a :: as) [x],
      List.countP_append (fun y => y.severity == "warning") (a :: as) [x],
      List.countP_append (fun y => y.severity == "info") (a :: as) [x]]
    push_cast
    apply score_core_anti
    · have hpos : (0 : ℕ) < max tl 1 := by omega
      exact_mod_cast hpos
    · have he0 : (0 : ℚ) ≤ ((List.countP (fun y => y.severity == "error") [x] : ℕ) : ℚ) := by
        positivity
      have hw0 : (0 : ℚ) ≤ ((List.countP (fun y => y.severity == "warning") [x] : ℕ) : ℚ) := by
        positivity
      have hi0 : (0 : ℚ) ≤ ((List.countP (fun y => y.severity == "info") [x] : ℕ) : ℚ) := by
        positivity
      nlinarith

/-- Claim C7 witness at a concrete input: empty findings, one line, one error added. -/
theorem score_bounds_and_monotone_witness :
    0 ≤ calculate_score [] 1 ∧ calculate_score [] 1 ≤ 100 ∧
      calculate_score ([] ++ [⟨1, "error", "file", "m", "s"⟩]) 1 ≤ calculate_score [] 1 :=
  score_bounds_and_monotone [] 1 ⟨1, "error", "file", "m", "s"⟩ (Or.inl rfl)

/-- Claim C8: the result record of `review_file` is a function of the file identity
and its content only — any two reviewer states (for example, states left behind by
different earlier batches) produce the same result, because the per-run findings
collection is reset at the start of each call; and the rule battery is a pure
function, so rerunning it on identical lines is the identical findings list. -/
theorem review_file_state_independent (st1 st2 : ReviewerState) (path : String)
    (content : Except String String) (lines : List Line) :
    (review_file st1 path content).2 = (review_file st2 path content).2 ∧
      run_checks lines = run_checks lines := by
  refine ⟨?_, rfl⟩
  cases content <;> rfl

/-- Claim C9: the three windowed scans of the rules — the thread-safety ±window, the
indentation lookback, and the catch-logging lookahead — only produce indices strictly
below the number of lines, for every 1-based current line `i` within the file, so the
corresponding `lines[j]` accesses in the source stay in bounds and no rule raises. -/
theorem rule_windows_in_bounds (len i : Nat) (h1 : 1 ≤ i) (h2 : i ≤ len) :
    (∀ j ∈ threadSafetyWindow i len, j < len) ∧
    (∀ j ∈ indentWindow i, j < len) ∧
    (∀ j ∈ loggingWindow i len, j < len) := by
  refine ⟨?_, ?_, ?_⟩ <;> intro j hj
  · unfold threadSafetyWindow at hj
    rw [List.mem_range'_1] at hj
    omega
  · unfold indentWindow at hj
    rw [List.mem_range'_1] at hj
    omega
  · unfold loggingWindow at hj
    rw [List.mem_range'_1] at hj
    omega

/-- Claim C9 witness: the three windows for line 3 of a 5-line file stay below 5. -/
theorem rule_windows_in_bounds_witness :
    ((threadSafetyWindow 3 5).all fun j => decide (j < 5)) = true ∧
    ((indentWindow 3).all fun j => decide (j < 5)) = true ∧
    ((loggingWindow 3 5).all fun j => decide (j < 5)) = true := by
  have h := rule_windows_in_bounds 5 3 (by norm_num) (by norm_num)
  refine ⟨?_, ?_, ?_⟩
  · exact List.all_eq_true.2 fun j hj => by simpa using h.1 j hj
  · exact List.all_eq_true.2 fun j hj => by simpa using h.2.1 j hj
  · exact List.all_eq_true.2 fun j hj => by simpa using h.2.2 j hj

/-- Claim C10: every finding the rule battery produces carries a severity among
error, warning, info and a 1-based line number between 1 and the number of lines;
the only line-0 finding is the single file-level finding of the unreadable-file
result.  The battery output is a pure list built by appending each rule's findings,
so findings are never mutated or removed. -/
theorem findings_invariants :
    (∀ (lines : List Line) (iss : CodeIssue), iss ∈ run_checks lines →
        (iss.severity = "error" ∨ iss.severity = "warning" ∨ iss.severity = "info") ∧
        1 ≤ iss.line_number ∧ iss.line_number ≤ lines.length) ∧
    (∀ (st : ReviewerState) (path e : String),
        ((review_file st path (Except.error e)).2).issues =
          [⟨0, "error", "file", "无法读取文件: " ++ e, "检查文件路径和权限"⟩]) := by
  constructor
  · intro lines iss h
    unfold run_checks at h
    rcases List.mem_append.1 h with h | h
    · rcases List.mem_append.1 h with h | h
      · rcases List.mem_append.1 h with h | h
        · rcases List.mem_append.1 h with h | h
          · rcases List.mem_append.1 h with h | h
            · rcases List.mem_append.1 h with h | h
              · exact check_code_style_sound h
              · exact check_code_style_additional_sound h
            · exact check_thread_safety_sound h
          · exact check_logging_sound h
        · exact check_exception_handling_sound h
      · exact check_performance_sound h
    · exact check_best_practices_sound h
  · intro st path e
    rfl

/-- Claim C10 witness: the logging warning emitted for a `System.out.println` line
has an allowed severity and a line number within bounds. -/
theorem findings_invariants_witness :
    ((⟨1, "warning", "logging", "使用了System.out.println进行输出",
        "建议使用专业的日志框架如SLF4J + Logback"⟩ : CodeIssue).severity = "error" ∨
      (⟨1, "warning", "logging", "使用了System.out.println进行输出",
        "建议使用专业的日志框架如SLF4J + Logback"⟩ : CodeIssue).severity = "warning" ∨
      (⟨1, "warning", "logging", "使用了System.out.println进行输出",
        "建议使用专业的日志框架如SLF4J + Logback"⟩ : CodeIssue).severity = "info") ∧
    1 ≤ (⟨1, "warning", "logging", "使用了System.out.println进行输出",
        "建议使用专业的日志框架如SLF4J + Logback"⟩ : CodeIssue).line_number ∧
    (⟨1, "warning", "logging", "使用了System.out.println进行输出",
        "建议使用专业的日志框架如SLF4J + Logback"⟩ : CodeIssue).line_number ≤
      (["System.out.println(x);".data] : List Line).length :=
  findings_invariants.1 ["System.out.println(x);".data] _ (by decide)
